import Mathlib

/-
Verification of `scripts/remove-white-edges.py`.

The script loads a PNG as RGBA, scans every pixel, and replaces "white-ish"
pixels by fully transparent black (0,0,0,0), counting how many pixels were
assigned.  We embed the per-pixel classification and the scan loop shallowly:

* a pixel is four natural-number channels (PIL guarantees each in [0,255];
  where a claim needs the bound we carry it as an explicit `Pixel.valid`
  hypothesis);
* the threshold is an integer (Python ints are unbounded and may be negative;
  the CLI parses it with `int(...)`);
* the Python float expressions `(r + g + b) / 3`, `threshold * 0.85` and their
  comparisons are embedded as exact rational arithmetic.  For the values the
  script can produce (channel sums ≤ 765, thresholds of realistic magnitude)
  IEEE double evaluation of these expressions compares to the operands exactly
  as the rationals (r+g+b)/3 and threshold·(85/100) do, since the quantities
  compared differ by at least 1/60 whenever they differ at all, which dwarfs
  the rounding error of the doubles involved;
* the image is the row-major list of its pixels: the loop touches each pixel
  independently, so width/height play no role in any claim about pixel values
  or counts;
* the `__main__` glue (argument handling, existence check, decode, save) is
  embedded as a pure function from the argument vector and an abstract
  file-system view to an outcome record (exit code, whether an error message
  was printed, which path, if any, was written).
-/

/-- An RGBA pixel as loaded by `img.load()` after `convert("RGBA")`. -/
structure Pixel where
  r : Nat
  g : Nat
  b : Nat
  a : Nat
  deriving DecidableEq, Repr

/-- PIL guarantees every channel of an RGBA pixel lies in [0,255]. -/
def Pixel.valid (p : Pixel) : Prop :=
  p.r ≤ 255 ∧ p.g ≤ 255 ∧ p.b ≤ 255 ∧ p.a ≤ 255

instance (p : Pixel) : Decidable p.valid :=
  inferInstanceAs (Decidable (_ ∧ _ ∧ _ ∧ _))

/-- The value written to a matching pixel: `pixels[x, y] = (0, 0, 0, 0)`. -/
def zeroPixel : Pixel := ⟨0, 0, 0, 0⟩

/-- Rule 1 (line 33): `r >= threshold and g >= threshold and b >= threshold`. -/
def hardWhite (threshold : ℤ) (p : Pixel) : Prop :=
  (p.r : ℤ) ≥ threshold ∧ (p.g : ℤ) ≥ threshold ∧ (p.b : ℤ) ≥ threshold

instance (threshold : ℤ) (p : Pixel) : Decidable (hardWhite threshold p) :=
  inferInstanceAs (Decidable (_ ∧ _ ∧ _))

/-- Rule 2 (line 38): `(r + g + b) / 3 >= threshold`, exact-rational model of
the Python float average. -/
def avgWhite (threshold : ℤ) (p : Pixel) : Prop :=
  ((p.r : ℚ) + (p.g : ℚ) + (p.b : ℚ)) / 3 ≥ (threshold : ℚ)

/-- The exact rational comparison `(r + g + b) / 3 ≥ threshold` holds exactly
when the integer comparison `3 * threshold ≤ r + g + b` does. -/
theorem avgWhite_iff (threshold : ℤ) (p : Pixel) :
    avgWhite threshold p ↔ 3 * threshold ≤ (p.r : ℤ) + (p.g : ℤ) + (p.b : ℤ) := by
  unfold avgWhite
  rw [ge_iff_le, le_div_iff₀ (by norm_num : (0 : ℚ) < 3)]
  constructor
  · intro h
    have h' : (3 * threshold : ℚ) ≤ (p.r : ℚ) + (p.g : ℚ) + (p.b : ℚ) := by
      linarith
    exact_mod_cast h'
  · intro h
    have h' : (3 * threshold : ℚ) ≤ (p.r : ℚ) + (p.g : ℚ) + (p.b : ℚ) := by
      exact_mod_cast h
    linarith

instance (threshold : ℤ) (p : Pixel) : Decidable (avgWhite threshold p) :=
  decidable_of_iff _ (avgWhite_iff threshold p).symm

/-- Rule 3 (line 42): `a < 255 and (r + g + b) / 3 >= threshold * 0.85`,
with the literal `0.85` denoting the exact rational 85/100. -/
def translucentBright (threshold : ℤ) (p : Pixel) : Prop :=
  p.a < 255 ∧ ((p.r : ℚ) + (p.g : ℚ) + (p.b : ℚ)) / 3 ≥ (threshold : ℚ) * 0.85

/-- The exact rational comparison `(r + g + b) / 3 ≥ threshold * 0.85` holds
exactly when the integer comparison `51 * threshold ≤ 20 * (r + g + b)` does. -/
theorem translucentBright_iff (threshold : ℤ) (p : Pixel) :
    translucentBright threshold p ↔
      p.a < 255 ∧ 51 * threshold ≤ 20 * ((p.r : ℤ) + (p.g : ℤ) + (p.b : ℤ)) := by
  unfold translucentBright
  refine and_congr_right fun _ => ?_
  rw [ge_iff_le, show (0.85 : ℚ) = 17 / 20 by norm_num]
  constructor
  · intro h
    rw [le_div_iff₀ (by norm_num : (0 : ℚ) < 3)] at h
    have h' : (51 * threshold : ℚ) ≤ 20 * ((p.r : ℚ) + (p.g : ℚ) + (p.b : ℚ)) := by
      linarith
    exact_mod_cast h'
  · intro h
    have h' : (51 * threshold : ℚ) ≤ 20 * ((p.r : ℚ) + (p.g : ℚ) + (p.b : ℚ)) := by
      exact_mod_cast h
    rw [le_div_iff₀ (by norm_num : (0 : ℚ) < 3)]
    linarith

instance (threshold : ℤ) (p : Pixel) : Decidable (translucentBright threshold p) :=
  decidable_of_iff _ (translucentBright_iff threshold p).symm

/-- The disjunction of the three rules: exactly the pixels assigned
`(0, 0, 0, 0)` by the `if`/`elif` chain. -/
def whiteRule (threshold : ℤ) (p : Pixel) : Prop :=
  hardWhite threshold p ∨ avgWhite threshold p ∨ translucentBright threshold p

instance (threshold : ℤ) (p : Pixel) : Decidable (whiteRule threshold p) :=
  inferInstanceAs (Decidable (_ ∨ _ ∨ _))

/-- The per-pixel effect of one iteration of the scan loop (lines 30-44):
the `if`/`elif` chain either assigns `(0,0,0,0)` or leaves the pixel alone. -/
def processPixel (threshold : ℤ) (p : Pixel) : Pixel :=
  if hardWhite threshold p then zeroPixel
  else if avgWhite threshold p then zeroPixel
  else if translucentBright threshold p then zeroPixel
  else p

/-- `remove_white_edges` (lines 27-50) restricted to its pure content: the
scan loop over the row-major pixel list, returning the rewritten pixels and
`transparent_count`.  Each branch of the chain both writes `(0,0,0,0)` and
increments the counter, exactly as in the source. -/
def remove_white_edges (img : List Pixel) (threshold : ℤ) : List Pixel × ℕ :=
  match img with
  | [] => ([], 0)
  | p :: rest =>
    let tc := remove_white_edges rest threshold
    if hardWhite threshold p then (zeroPixel :: tc.1, tc.2 + 1)
    else if avgWhite threshold p then (zeroPixel :: tc.1, tc.2 + 1)
    else if translucentBright threshold p then (zeroPixel :: tc.1, tc.2 + 1)
    else (p :: tc.1, tc.2)

/-- Number of pixels whose output value differs from their input value. -/
def countChanged (img : List Pixel) (threshold : ℤ) : ℕ :=
  img.countP (fun p => decide (processPixel threshold p ≠ p))

/-- Number of pixels matching rule 1 (hard white). -/
def countHardWhite (img : List Pixel) (threshold : ℤ) : ℕ :=
  img.countP (fun p => decide (hardWhite threshold p))

/-- Number of pixels matching rule 2 (average white). -/
def countAvgWhite (img : List Pixel) (threshold : ℤ) : ℕ :=
  img.countP (fun p => decide (avgWhite threshold p))

/-- Observable outcome of one run of the script's `__main__` block: the
process exit code, whether an error/usage message was printed, and the path
the filtered image was saved to (`none` when the script never reaches
`img.save`). -/
structure MainOutcome where
  exitCode : Nat
  errorPrinted : Bool
  outputWritten : Option String
  deriving DecidableEq, Repr

/-- The `__main__` block (lines 52-70) as a pure function of the argument
vector and an abstract file-system view.  `fileExists` models
`os.path.exists`; `decode` models `Image.open(...).convert("RGBA")`, `none`
meaning the load raises (caught by the `except`, exit 1).  Mirrors the source
order: usage check, argument extraction with `int(sys.argv[3])` (an unparsable
threshold raises an uncaught `ValueError`: traceback printed, exit 1), the
existence check, then the guarded call to `remove_white_edges`, whose save to
`output_path` is the only write the script performs. -/
def pyMain (argv : List String) (fileExists : String → Bool)
    (decode : String → Option (List Pixel)) : MainOutcome :=
  if argv.length < 2 then
    { exitCode := 1, errorPrinted := true, outputWritten := none }
  else
    let input_path := argv.getD 1 ""
    let output_path := if 2 < argv.length then argv.getD 2 "" else input_path
    match (if 3 < argv.length then (argv.getD 3 "").toInt? else some 240) with
    | none => { exitCode := 1, errorPrinted := true, outputWritten := none }
    | some _threshold =>
      if fileExists input_path then
        match decode input_path with
        | none => { exitCode := 1, errorPrinted := true, outputWritten := none }
        | some _img =>
          { exitCode := 0, errorPrinted := false, outputWritten := some output_path }
      else
        { exitCode := 1, errorPrinted := true, outputWritten := none }

/-- Each branch of the `if`/`elif` chain writes `(0,0,0,0)` or leaves the
pixel untouched. -/
theorem processPixel_eq_self_or_zero (threshold : ℤ) (p : Pixel) :
    processPixel threshold p = p ∨ processPixel threshold p = zeroPixel := by
  unfold processPixel
  split_ifs
  · exact Or.inr rfl
  · exact Or.inr rfl
  · exact Or.inr rfl
  · exact Or.inl rfl

/-- A fully transparent black pixel is mapped to itself (whether or not a rule
matches it, every branch writes `(0,0,0,0)` again). -/
theorem processPixel_zeroPixel (threshold : ℤ) :
    processPixel threshold zeroPixel = zeroPixel := by
  unfold processPixel
  split_ifs <;> rfl

/-- The per-pixel transform is idempotent. -/
theorem processPixel_idem (threshold : ℤ) (p : Pixel) :
    processPixel threshold (processPixel threshold p) = processPixel threshold p := by
  rcases processPixel_eq_self_or_zero threshold p with h | h
  · rw [h]
    exact h
  · rw [h, processPixel_zeroPixel]

/-- If some rule matches, the chain writes `(0,0,0,0)`. -/
theorem processPixel_eq_zero_of_rule (threshold : ℤ) (p : Pixel)
    (h : whiteRule threshold p) : processPixel threshold p = zeroPixel := by
  unfold processPixel
  split_ifs with h1 h2 h3
  · rfl
  · rfl
  · rfl
  · rcases h with h | h | h <;> contradiction

/-- If no rule matches, the pixel is left exactly as it was. -/
theorem processPixel_eq_of_not_rule (threshold : ℤ) (p : Pixel)
    (h : ¬ whiteRule threshold p) : processPixel threshold p = p := by
  unfold processPixel
  split_ifs with h1 h2 h3
  · exact absurd (Or.inl h1) h
  · exact absurd (Or.inr (Or.inl h2)) h
  · exact absurd (Or.inr (Or.inr h3)) h
  · rfl

/-- The pixel list produced by the loop is the pointwise image of the
per-pixel transform. -/
theorem remove_white_edges_fst (img : List Pixel) (threshold : ℤ) :
    (remove_white_edges img threshold).1 = img.map (processPixel threshold) := by
  induction img with
  | nil => rfl
  | cons p rest ih =>
    simp only [remove_white_edges, List.map_cons]
    split_ifs with h1 h2 h3 <;> simp [processPixel, h1, ih]
    · simp [h2]
    · simp [h2, h3]
    · simp [h2, h3]

/-- `transparent_count` counts exactly the pixels matching some rule. -/
theorem remove_white_edges_snd (img : List Pixel) (threshold : ℤ) :
    (remove_white_edges img threshold).2 =
      img.countP (fun p => decide (whiteRule threshold p)) := by
  induction img with
  | nil => rfl
  | cons p rest ih =>
    have hsplit : (remove_white_edges (p :: rest) threshold).2 =
        (remove_white_edges rest threshold).2 +
          if whiteRule threshold p then 1 else 0 := by
      simp only [remove_white_edges]
      split_ifs <;>
        first
        | rfl
        | (exfalso; simp only [whiteRule] at *; tauto)
    rw [hsplit, List.countP_cons, ← ih]
    by_cases hw : whiteRule threshold p <;> simp [hw]

/-- With a positive threshold, a pixel matches some rule exactly when the
transform actually changes it. -/
theorem whiteRule_iff_changed (threshold : ℤ) (p : Pixel) (ht : 1 ≤ threshold) :
    whiteRule threshold p ↔ processPixel threshold p ≠ p := by
  constructor
  · intro h
    rw [processPixel_eq_zero_of_rule threshold p h]
    intro heq
    have hsum : 1 ≤ p.r + p.g + p.b := by
      rcases h with ⟨ha, _, _⟩ | h | h
      · omega
      · rw [avgWhite_iff] at h
        omega
      · rw [translucentBright_iff] at h
        obtain ⟨-, h⟩ := h
        omega
    rw [← heq] at hsum
    simp [zeroPixel] at hsum
  · intro hne
    by_contra hnot
    exact hne (processPixel_eq_of_not_rule threshold p hnot)

/-- Rule 1 implies rule 2: three channels each at least the threshold force
the average to be at least the threshold. -/
theorem hardWhite_imp_avgWhite (threshold : ℤ) (p : Pixel)
    (h : hardWhite threshold p) : avgWhite threshold p := by
  obtain ⟨h1, h2, h3⟩ := h
  rw [avgWhite_iff]
  omega

/-- Pointwise equal Boolean predicates count the same number of elements. -/
theorem countP_ext {α : Type} (P Q : α → Bool) (l : List α)
    (h : ∀ a, P a = Q a) : l.countP P = l.countP Q := by
  induction l with
  | nil => rfl
  | cons a l ih => rw [List.countP_cons, List.countP_cons, h a, ih]

/-- Claim C1: a pixel is written as (0,0,0,0) whenever one of the three rules
(hard white, average white, translucent bright) holds, and when none holds all
four of its channels, alpha included, are left exactly equal to their input
values. -/
theorem claim_C1_pixel_zeroed_iff_rule (threshold : ℤ) (p : Pixel) :
    ((hardWhite threshold p ∨ avgWhite threshold p ∨ translucentBright threshold p) →
      processPixel threshold p = zeroPixel) ∧
    (¬ (hardWhite threshold p ∨ avgWhite threshold p ∨ translucentBright threshold p) →
      processPixel threshold p = p) :=
  ⟨processPixel_eq_zero_of_rule threshold p, processPixel_eq_of_not_rule threshold p⟩

/-- Witness for C1 at the pixels (250,250,250,255) (average white at 240) and
(10,10,10,255) (no rule at 240). -/
theorem claim_C1_witness :
    processPixel 240 ⟨250, 250, 250, 255⟩ = zeroPixel ∧
    processPixel 240 ⟨10, 10, 10, 255⟩ = ⟨10, 10, 10, 255⟩ :=
  ⟨(claim_C1_pixel_zeroed_iff_rule 240 ⟨250, 250, 250, 255⟩).1
      (Or.inr (Or.inl (by decide))),
   (claim_C1_pixel_zeroed_iff_rule 240 ⟨10, 10, 10, 255⟩).2 (by decide)⟩

/-- Claim C2: every output pixel is either byte-identical to the
corresponding input pixel or exactly (0,0,0,0); no pixel has only some
channels modified. -/
theorem claim_C2_pixel_untouched_or_fully_zeroed (img : List Pixel) (threshold : ℤ) :
    List.Forall₂ (fun q p => q = p ∨ q = zeroPixel)
      (remove_white_edges img threshold).1 img := by
  rw [remove_white_edges_fst]
  induction img with
  | nil => exact List.Forall₂.nil
  | cons p rest ih =>
    exact List.Forall₂.cons (processPixel_eq_self_or_zero threshold p) ih

/-- Counterexample to C3 as stated: at threshold 0 the already-transparent
black pixel matches rule 1 (0 ≥ 0 on all three channels), so the counter
reports 1 although the output pixel is identical to the input. -/
theorem claim_C3_counterexample :
    ¬ ((remove_white_edges [⟨0, 0, 0, 0⟩] 0).2 = countChanged [⟨0, 0, 0, 0⟩] 0) := by
  decide

/-- Claim C3 (amended): for every positive threshold, the value returned by
`remove_white_edges` equals the number of pixels whose output value differs
from their input value. -/
theorem claim_C3_returns_count_changed (img : List Pixel) (threshold : ℤ)
    (ht : 1 ≤ threshold) :
    (remove_white_edges img threshold).2 = countChanged img threshold := by
  rw [remove_white_edges_snd]
  unfold countChanged
  exact countP_ext _ _ img fun p =>
    decide_eq_decide.mpr (whiteRule_iff_changed threshold p ht)

/-- Witness for amended C3 at a two-pixel image and threshold 240. -/
theorem claim_C3_witness :
    (remove_white_edges [⟨255, 255, 255, 255⟩, ⟨0, 0, 0, 0⟩] 240).2 =
      countChanged [⟨255, 255, 255, 255⟩, ⟨0, 0, 0, 0⟩] 240 :=
  claim_C3_returns_count_changed _ 240 (by decide)

/-- Claim C4: running the filter a second time with the same threshold on its
own output changes no pixel. -/
theorem claim_C4_idempotent (img : List Pixel) (threshold : ℤ) :
    (remove_white_edges (remove_white_edges img threshold).1 threshold).1 =
      (remove_white_edges img threshold).1 := by
  simp only [remove_white_edges_fst, List.map_map]
  exact List.map_congr_left fun p _ => processPixel_idem threshold p

/-- Claim C5: for a fixed image, raising the threshold can only shrink (or
keep equal) the number of rule-1 matches and the number of rule-2 matches. -/
theorem claim_C5_monotone_in_threshold (img : List Pixel) (T1 T2 : ℤ)
    (h : T1 ≤ T2) :
    countHardWhite img T2 ≤ countHardWhite img T1 ∧
    countAvgWhite img T2 ≤ countAvgWhite img T1 := by
  constructor
  · apply List.countP_mono_left
    intro p _ hp
    have hp' := of_decide_eq_true hp
    apply decide_eq_true
    obtain ⟨a, b, c⟩ := hp'
    exact ⟨le_trans h a, le_trans h b, le_trans h c⟩
  · apply List.countP_mono_left
    intro p _ hp
    have hp' := of_decide_eq_true hp
    apply decide_eq_true
    rw [avgWhite_iff] at hp' ⊢
    omega

/-- Witness for C5 at thresholds 240 ≤ 250 on a two-pixel image. -/
theorem claim_C5_witness :
    countHardWhite [⟨255, 255, 255, 255⟩, ⟨245, 245, 245, 255⟩] 250 ≤
        countHardWhite [⟨255, 255, 255, 255⟩, ⟨245, 245, 245, 255⟩] 240 ∧
      countAvgWhite [⟨255, 255, 255, 255⟩, ⟨245, 245, 245, 255⟩] 250 ≤
        countAvgWhite [⟨255, 255, 255, 255⟩, ⟨245, 245, 245, 255⟩] 240 :=
  claim_C5_monotone_in_threshold _ 240 250 (by decide)

/-- Claim C6 (Scenario A): on the 2x2 opaque image with pixels
(255,255,255,255), (250,250,250,255), (10,10,10,255), (0,0,0,0) and
threshold 240, the first two pixels become (0,0,0,0), the third and fourth
are unchanged, and the reported count is 2. -/
theorem claim_C6_scenario_a :
    remove_white_edges
        [⟨255, 255, 255, 255⟩, ⟨250, 250, 250, 255⟩, ⟨10, 10, 10, 255⟩, ⟨0, 0, 0, 0⟩]
        240 =
      ([zeroPixel, zeroPixel, ⟨10, 10, 10, 255⟩, ⟨0, 0, 0, 0⟩], 2) := by
  decide

/-- Claim C7 (Scenario B): the single translucent pixel (230,230,230,100) at
threshold 240 is zeroed with count 1, and it is rule 3 that applies (rules 1
and 2 do not hold). -/
theorem claim_C7_scenario_b :
    remove_white_edges [⟨230, 230, 230, 100⟩] 240 = ([zeroPixel], 1) ∧
    translucentBright 240 ⟨230, 230, 230, 100⟩ ∧
    ¬ hardWhite 240 ⟨230, 230, 230, 100⟩ ∧
    ¬ avgWhite 240 ⟨230, 230, 230, 100⟩ := by
  decide

/-- Claim C8: when the input path does not exist, the script exits with code
1, prints an error message, and writes no output file. -/
theorem claim_C8_missing_input (argv : List String) (fileExists : String → Bool)
    (decode : String → Option (List Pixel)) (hlen : 2 ≤ argv.length)
    (hmiss : fileExists (argv.getD 1 "") = false) :
    pyMain argv fileExists decode =
      { exitCode := 1, errorPrinted := true, outputWritten := none } := by
  unfold pyMain
  rw [if_neg (by omega)]
  cases hE : (if 3 < argv.length then (argv.getD 3 "").toInt? else some 240) with
  | none => rfl
  | some t =>
    rw [List.getD_eq_getElem?_getD] at hmiss
    simp [hmiss]

/-- Witness for C8: a concrete argument vector naming a path absent from the
file system. -/
theorem claim_C8_witness :
    pyMain ["remove-white-edges.py", "missing.png"] (fun _ => false) (fun _ => none) =
      { exitCode := 1, errorPrinted := true, outputWritten := none } :=
  claim_C8_missing_input _ _ _ (by decide) rfl

/-- Claim C9: with channel values in [0,255], a threshold above 255 makes
rule 1 unsatisfiable, and a negative threshold makes every pixel match rule 1
and be zeroed. -/
theorem claim_C9_out_of_range_thresholds (p : Pixel) (threshold : ℤ)
    (hv : p.valid) :
    (255 < threshold → ¬ hardWhite threshold p) ∧
    (threshold < 0 → hardWhite threshold p ∧ processPixel threshold p = zeroPixel) := by
  obtain ⟨hr, hg, hb, -⟩ := hv
  constructor
  · rintro hT ⟨h1, -, -⟩
    omega
  · intro hT
    have h1 : hardWhite threshold p := by
      refine ⟨?_, ?_, ?_⟩ <;> omega
    exact ⟨h1, processPixel_eq_zero_of_rule threshold p (Or.inl h1)⟩

/-- Witness for C9 at thresholds 256 and -1 on an all-white pixel. -/
theorem claim_C9_witness :
    ¬ hardWhite 256 ⟨255, 255, 255, 255⟩ ∧
    (hardWhite (-1) ⟨255, 255, 255, 255⟩ ∧
      processPixel (-1) ⟨255, 255, 255, 255⟩ = zeroPixel) :=
  ⟨(claim_C9_out_of_range_thresholds ⟨255, 255, 255, 255⟩ 256 (by decide)).1
      (by decide),
   (claim_C9_out_of_range_thresholds ⟨255, 255, 255, 255⟩ (-1) (by decide)).2
      (by decide)⟩

/-- Claim C10: rule 1 implies rule 2, so the set of pixels the chain zeroes
is exactly the set satisfying rule 2 or rule 3; rule 1 never enlarges it. -/
theorem claim_C10_rule1_redundant (threshold : ℤ) (p : Pixel) :
    (hardWhite threshold p → avgWhite threshold p) ∧
    ((hardWhite threshold p ∨ avgWhite threshold p ∨ translucentBright threshold p) ↔
      (avgWhite threshold p ∨ translucentBright threshold p)) := by
  refine ⟨hardWhite_imp_avgWhite threshold p, ?_, fun h => Or.inr h⟩
  rintro (h | h | h)
  · exact Or.inl (hardWhite_imp_avgWhite threshold p h)
  · exact Or.inl h
  · exact Or.inr h

/-- Witness for C10: the hard-white pixel (250,250,250,255) at threshold 240
is also average white. -/
theorem claim_C10_witness :
    avgWhite 240 ⟨250, 250, 250, 255⟩ ∨ translucentBright 240 ⟨250, 250, 250, 255⟩ :=
  (claim_C10_rule1_redundant 240 ⟨250, 250, 250, 255⟩).2.mp (Or.inl (by decide))
